import Mathlib

/-!
Shallow embedding of the transaction-building core of the avalanche.js
library.  Byte buffers become lists of naturals, `BN` values become `Nat`
(or `Int` where a difference may be negative), classes become structures,
and fallible builders return `Except`.  Definitions follow the TypeScript
sources; the few collaborator files that are not part of the sources are
modelled from the specification and are marked as such in their doc
comments.
-/

namespace Avalanche

/-- Raw byte buffers, modelled as lists of naturals (one entry per byte). -/
abbrev Bytes := List Nat

/-- `Buffer.compare` from the `buffer/` module: lexicographic comparison of
the byte sequences; a strict prefix compares smaller than the longer buffer. -/
def bufferCompare : Bytes → Bytes → Ordering
  | [], [] => Ordering.eq
  | [], _ :: _ => Ordering.lt
  | _ :: _, [] => Ordering.gt
  | a :: as, b :: bs =>
    if a < b then Ordering.lt
    else if b < a then Ordering.gt
    else bufferCompare as bs

/-- Byte-wise "less or equal": the comparator did not answer `gt`.  This is the
relation under which a JS `sort` with `Buffer.compare` leaves its result. -/
def byteLe (a b : Bytes) : Prop := bufferCompare a b ≠ Ordering.gt

instance : DecidableRel byteLe := fun a b =>
  inferInstanceAs (Decidable (bufferCompare a b ≠ Ordering.gt))

/-- Big-endian 4-byte encoding of a `u32` (`writeUInt32BE`). -/
def u32be (n : Nat) : Bytes :=
  [n / 2 ^ 24 % 256, n / 2 ^ 16 % 256, n / 2 ^ 8 % 256, n % 256]

/-- Big-endian 8-byte encoding of a `u64` (`fromBNToBuffer(_, 8)`). -/
def u64be (n : Nat) : Bytes :=
  [n / 2 ^ 56 % 256, n / 2 ^ 48 % 256, n / 2 ^ 40 % 256, n / 2 ^ 32 % 256,
   n / 2 ^ 24 % 256, n / 2 ^ 16 % 256, n / 2 ^ 8 % 256, n % 256]

/-- `addresses.sort(Address.comparator())`: the address lists of an owner set
are sorted byte-ascending (src/src/common/output.ts, constructor and
`toBuffer`). -/
def sortAddresses (addrs : List Bytes) : List Bytes :=
  List.insertionSort byteLe addrs

/-- `OutputOwners` (src/src/common/output.ts 84-272): locktime (u64),
threshold (u32) and the owner addresses (20 raw bytes each). -/
structure OutputOwners where
  locktime : Nat
  threshold : Nat
  addresses : List Bytes
  deriving DecidableEq

/-- The `OutputOwners` constructor (src/src/common/output.ts 254-271): stores
the addresses sorted with `Address.comparator`. -/
def mkOutputOwners (addresses : List Bytes) (locktime : Nat) (threshold : Nat) :
    OutputOwners :=
  { locktime := locktime, threshold := threshold, addresses := sortAddresses addresses }

/-- Inner loop of `OutputOwners.getSpenders` (src/src/common/output.ts 179-183):
scan the candidate addresses for matches of one owner address, pushing each
match while fewer than `threshold` entries are qualified. -/
def spenderScanCands (owner : Bytes) (threshold : Nat) :
    List Bytes → List Bytes → List Bytes
  | acc, [] => acc
  | acc, c :: rest =>
    if acc.length < threshold then
      if c = owner then spenderScanCands owner threshold (acc ++ [c]) rest
      else spenderScanCands owner threshold acc rest
    else acc

/-- Outer loop of `OutputOwners.getSpenders` (src/src/common/output.ts 178-184):
walk the owner addresses in stored order while fewer than `threshold` entries
are qualified. -/
def spenderScanOwners (cands : List Bytes) (threshold : Nat) :
    List Bytes → List Bytes → List Bytes
  | acc, [] => acc
  | acc, o :: rest =>
    if acc.length < threshold then
      spenderScanOwners cands threshold (spenderScanCands o threshold acc cands) rest
    else acc

/-- `OutputOwners.getSpenders` (src/src/common/output.ts 164-187): empty when
`asOf ≤ locktime`, otherwise the double scan above. -/
def OutputOwners.getSpenders (o : OutputOwners) (addresses : List Bytes)
    (asOf : Nat) : List Bytes :=
  if asOf ≤ o.locktime then []
  else spenderScanOwners addresses o.threshold [] o.addresses

/-- `OutputOwners.meetsThreshold` (src/src/common/output.ts 145-159): the
qualified spenders reach the threshold. -/
def OutputOwners.meetsThreshold (o : OutputOwners) (addresses : List Bytes)
    (asOf : Nat) : Bool :=
  o.threshold ≤ (o.getSpenders addresses asOf).length

/-- `OutputOwners.toBuffer` (src/src/common/output.ts 213-224):
locktime(8) ‖ threshold(4) ‖ numaddrs(4) ‖ sorted addresses. -/
def OutputOwners.toBuffer (o : OutputOwners) : Bytes :=
  u64be o.locktime ++ u32be o.threshold ++
    u32be (sortAddresses o.addresses).length ++ (sortAddresses o.addresses).flatten

/-- A typed output: the amount-bearing SECP transfer output
(`StandardAmountOutput`, src/src/common/output.ts 341-388) with the type id of
its concrete class, or some other non-amount output kind carrying its
serialized body. -/
inductive Output where
  | secp (outputID : Nat) (amount : Nat) (owners : OutputOwners)
  | other (outputID : Nat) (body : Bytes)
  deriving DecidableEq

/-- `getOutputID`: the 32-bit type id of the concrete output class. -/
def Output.getOutputID : Output → Nat
  | .secp outputID _ _ => outputID
  | .other outputID _ => outputID

/-- The serialized output body.  For an amount output this is
`StandardAmountOutput.toBuffer` (src/src/common/output.ts 364-370):
amount(8) ‖ owner-set bytes. -/
def Output.toBuffer : Output → Bytes
  | .secp _ amount owners => u64be amount ++ owners.toBuffer
  | .other _ body => body

/-- `instanceof AmountOutput`. -/
def Output.isAmount : Output → Bool
  | .secp _ _ _ => true
  | .other _ _ => false

/-- `getAmount` of an amount output; the sources only invoke it on amount
outputs, other kinds answer 0 here. -/
def Output.getAmount : Output → Nat
  | .secp _ amount _ => amount
  | .other _ _ => 0

/-- `StandardTransferableOutput` (src/src/common/output.ts 295-336): an asset
id wrapped around a typed output. -/
structure TransferableOutput where
  assetID : Bytes
  output : Output
  deriving DecidableEq

/-- `StandardTransferableOutput.toBuffer` (src/src/common/output.ts 316-322):
assetID ‖ outputID_be(4) ‖ output body. -/
def TransferableOutput.toBuffer (t : TransferableOutput) : Bytes :=
  t.assetID ++ u32be t.output.getOutputID ++ t.output.toBuffer

/-- `StandardTransferableOutput.comparator` (src/src/common/output.ts 303-307):
`Buffer.compare` of the two full `toBuffer` forms. -/
def TransferableOutput.comparator (a b : TransferableOutput) : Ordering :=
  bufferCompare a.toBuffer b.toBuffer

/-- The sort key the spec claims for transferable-output lists, written from
the spec's words for comparison with the comparator:
`outputTypeID_be(4) ‖ output.toBytes()`. -/
def specClaimSortKey (t : TransferableOutput) : Bytes :=
  u32be t.output.getOutputID ++ t.output.toBuffer

/-- The order in which a JS `sort` with the comparator leaves two adjacent
transferable outputs. -/
def transferableOutLe (a b : TransferableOutput) : Prop :=
  TransferableOutput.comparator a b ≠ Ordering.gt

instance : DecidableRel transferableOutLe := fun a b =>
  inferInstanceAs (Decidable (TransferableOutput.comparator a b ≠ Ordering.gt))

/-- The sort performed on `exportOuts` by `ExportTx.toBuffer`
(platformvm exporttx, line 1257 of the combined api source):
`this.exportOuts.sort(TransferableOutput.comparator())`. -/
def sortTransferableOutputs (l : List TransferableOutput) : List TransferableOutput :=
  List.insertionSort transferableOutLe l

/-- `SecpInput` / `StandardAmountInput` (platformvm/inputs.ts 55-81): the
spent amount plus the signature indices accumulated by `addSignatureIdx`. -/
structure SecpInput where
  amount : Nat
  sigIdxs : List Nat
  deriving DecidableEq

/-- `StandardTransferableInput` (platformvm/inputs.ts 32-53): source
UTXO reference, asset id and the wrapped input. -/
structure TransferableInput where
  txid : Bytes
  outputidx : Bytes
  assetID : Bytes
  input : SecpInput
  deriving DecidableEq

/-- Modelled from the spec: `AssetAmount` (common/assetamount.ts, absent from
the sources).  Per-asset accumulator of coin selection: targets `amount` and
`burn`, accumulators `spent` and `burned` starting at 0 (§3 AAD row, §4.5). -/
structure AssetAmount where
  assetID : Bytes
  amount : Nat
  burn : Nat
  spent : Nat
  burned : Nat
  deriving DecidableEq

/-- Modelled from the spec: `spendAmount` applies the spent value to the
amount target first, with overflow going to the burn target (§4.6 step 4). -/
def AssetAmount.spendAmount (am : AssetAmount) (a : Nat) : AssetAmount :=
  let toAmount := min a (am.amount - am.spent)
  { am with spent := am.spent + toAmount, burned := am.burned + (a - toAmount) }

/-- Modelled from the spec: an asset's targets are met when `spent ≥ amount`
and `burned ≥ burn` (§3: `canComplete`). -/
def AssetAmount.isFinished (am : AssetAmount) : Bool :=
  am.amount ≤ am.spent && am.burn ≤ am.burned

/-- Modelled from the spec: the destination output issued after the walk
carries the full amount target (§4.6, after the walk). -/
def AssetAmount.getAmount (am : AssetAmount) : Nat := am.amount

/-- Modelled from the spec: whatever was spent beyond both targets becomes
change (§4.6, after the walk). -/
def AssetAmount.getChange (am : AssetAmount) : Nat :=
  am.spent + am.burned - (am.amount + am.burn)

/-- First asset accumulator with the given asset id
(`aad.getAssetAmount(assetKey)`; the hex-string keys of the source are
injective images of the byte buffers). -/
def lookupAsset (k : Bytes) : List AssetAmount → Option AssetAmount
  | [] => none
  | am :: rest => if am.assetID = k then some am else lookupAsset k rest

/-- Apply `spendAmount` to the first accumulator of the given asset id,
mirroring the in-place mutation of the source. -/
def spendFirstAsset (k : Bytes) (a : Nat) : List AssetAmount → List AssetAmount
  | [] => []
  | am :: rest =>
    if am.assetID = k then am.spendAmount a :: rest
    else am :: spendFirstAsset k a rest

/-- Modelled from the spec: `StandardAssetAmountDestination`
(common/assetamount.ts, absent from the sources).  Destination, sender and
change address lists plus the per-asset accumulators and the accumulated
inputs, spend outputs and change outputs (§4.5). -/
structure AssetAmountDestination where
  destinations : List Bytes
  senders : List Bytes
  changeAddresses : List Bytes
  amounts : List AssetAmount
  inputs : List TransferableInput
  outputs : List TransferableOutput
  change : List TransferableOutput
  deriving DecidableEq

/-- The `AssetAmountDestination` constructor: the three address lists, with
empty accumulators. -/
def mkAssetAmountDestination (destinations senders changeAddresses : List Bytes) :
    AssetAmountDestination :=
  { destinations := destinations, senders := senders,
    changeAddresses := changeAddresses,
    amounts := [], inputs := [], outputs := [], change := [] }

/-- Modelled from the spec: `addAssetAmount` registers a fresh accumulator
(`spent = burned = 0`); an omitted burn defaults to 0. -/
def AssetAmountDestination.addAssetAmount (aad : AssetAmountDestination)
    (assetID : Bytes) (amount : Nat) (burn : Option Nat) : AssetAmountDestination :=
  { aad with amounts :=
      aad.amounts ++ [{ assetID := assetID, amount := amount, burn := burn.getD 0,
                        spent := 0, burned := 0 }] }

/-- `aad.getAssetAmount`. -/
def AssetAmountDestination.getAssetAmount (aad : AssetAmountDestination)
    (k : Bytes) : Option AssetAmount :=
  lookupAsset k aad.amounts

/-- `aad.assetExists`. -/
def AssetAmountDestination.assetExists (aad : AssetAmountDestination)
    (k : Bytes) : Bool :=
  (aad.getAssetAmount k).isSome

/-- Modelled from the spec: `canComplete` holds when every asset accumulator
has met its targets (§3, §4.5). -/
def AssetAmountDestination.canComplete (aad : AssetAmountDestination) : Bool :=
  aad.amounts.all AssetAmount.isFinished

/-- Modelled from the spec: all outputs of the selection, spend outputs then
change outputs. -/
def AssetAmountDestination.getAllOutputs (aad : AssetAmountDestination) :
    List TransferableOutput :=
  aad.outputs ++ aad.change

/-- `UTXO` (part_000, 132-191): codec id, txid(32), output index(4),
asset id(32) and the typed output. -/
structure UTXO where
  codecID : Nat
  txid : Bytes
  outputidx : Bytes
  assetID : Bytes
  output : Output
  deriving DecidableEq

/-- `UTXOSet` (part_000, 198-730), reduced to the list that
`getAllUTXOs()` answers, in iteration order. -/
structure UTXOSet where
  utxos : List UTXO
  deriving DecidableEq

/-- The per-asset record of output type ids observed during the walk
(`outids` object in `getMinimumSpendable`); assignment overwrites. -/
def outidsSet : List (Bytes × Nat) → Bytes → Nat → List (Bytes × Nat)
  | [], k, v => [(k, v)]
  | (k0, v0) :: rest, k, v =>
    if k0 = k then (k, v) :: rest else (k0, v0) :: outidsSet rest k v

/-- Read an entry of the `outids` record. -/
def outidsGet (l : List (Bytes × Nat)) (k : Bytes) : Option Nat :=
  (l.find? (fun p => decide (p.1 = k))).map (fun p => p.2)

/-- The signature indices recorded for one consumed UTXO
(part_000, 249-258): for each spender in order, the index of the first equal
address in the owner list (`getAddressIdx`; the not-found branch throws in the
source and cannot fire because every spender is drawn from the owner list). -/
def sigIdxsOf (owners : OutputOwners) (spenders : List Bytes) : List Nat :=
  spenders.map (fun s => owners.addresses.findIdx (fun x => decide (x = s)))

/-- The UTXO walk of `UTXOSet.getMinimumSpendable` (part_000, 234-273): while
the selection is incomplete, consume every amount-bearing UTXO of a needed
asset whose owners meet the threshold for the senders, accumulating inputs and
applying `spendAmount`; remember the output type id seen per asset. -/
def msWalk (asOf : Nat) : List UTXO → AssetAmountDestination →
    List (Bytes × Nat) → AssetAmountDestination × List (Bytes × Nat)
  | [], aad, outids => (aad, outids)
  | u :: rest, aad, outids =>
    if aad.canComplete then (aad, outids)
    else
      match u.output with
      | .secp outid amount owners =>
        if aad.assetExists u.assetID &&
            owners.meetsThreshold aad.senders asOf then
          match aad.getAssetAmount u.assetID with
          | some am =>
            if am.isFinished then msWalk asOf rest aad outids
            else
              let spenders := owners.getSpenders aad.senders asOf
              let xferin : TransferableInput :=
                { txid := u.txid, outputidx := u.outputidx, assetID := u.assetID,
                  input := { amount := amount, sigIdxs := sigIdxsOf owners spenders } }
              let aad1 : AssetAmountDestination :=
                { aad with amounts := spendFirstAsset u.assetID amount aad.amounts,
                           inputs := aad.inputs ++ [xferin] }
              msWalk asOf rest aad1 (outidsSet outids u.assetID outid)
          | none => msWalk asOf rest aad outids
        else msWalk asOf rest aad outids
      | .other _ _ => msWalk asOf rest aad outids

/-- The UTXOs of an asset that the walk can consume: amount-bearing outputs
whose owners meet the threshold for the senders at `asOf`. -/
def utxoQualifies (senders : List Bytes) (asOf : Nat) (k : Bytes) (u : UTXO) : Bool :=
  decide (u.assetID = k) &&
    (match u.output with
     | .secp _ _ owners => owners.meetsThreshold senders asOf
     | .other _ _ => false)

/-- Total spendable amount of an asset over a UTXO list. -/
def spendableTotal (senders : List Bytes) (asOf : Nat) (k : Bytes)
    (utxos : List UTXO) : Nat :=
  ((utxos.filter (utxoQualifies senders asOf k)).map
    (fun u => u.output.getAmount)).sum

/-- Modelled collaboration: `SelectOutputClass(outid, amount, addrs, locktime,
threshold)` (platformvm/outputs.ts, absent from the sources) builds an amount
output of the recorded kind; the constructor sorts the addresses and defaults
locktime to 0 and threshold to 1. -/
def selectAmountOutput (outid : Nat) (amount : Nat) (addrs : List Bytes)
    (locktime : Nat) (threshold : Nat) : Output :=
  .secp outid amount (mkOutputOwners addrs locktime threshold)

/-- The output-emission pass after the walk (part_000, 278-296): per asset, a
destination output for a positive residual amount under
`(locktime, threshold, destinations)` and a change output for positive change
under `(0, 1, changeAddresses)`, both of the observed output type id. -/
def emitOutputs (aad : AssetAmountDestination) (outids : List (Bytes × Nat))
    (locktime : Nat) (threshold : Nat) : AssetAmountDestination :=
  aad.amounts.foldl (fun acc am =>
    let outid := (outidsGet outids am.assetID).getD 0
    let acc1 :=
      if 0 < am.getAmount then
        { acc with outputs := acc.outputs ++
            [{ assetID := am.assetID,
               output := selectAmountOutput outid am.getAmount acc.destinations locktime threshold }] }
      else acc
    if 0 < am.getChange then
      { acc1 with change := acc1.change ++
          [{ assetID := am.assetID,
             output := selectAmountOutput outid am.getChange acc1.changeAddresses 0 1 }] }
    else acc1) aad

/-- The error kinds thrown by the embedded code paths, one constructor per
distinct thrown message. -/
inductive BuildError where
  | insufficientFunds
  | thresholdExceedsAddresses
  | feeAssetMismatch
  | addValidatorBadTimes
  | addDelegatorBadTimes
  | addSubnetValidatorBadTimes
  | stakeBelowMinimum
  | delegationFeeOutOfRange
  | gooseEggFailed
  deriving DecidableEq

/-- `UTXOSet.getMinimumSpendable` (part_000, 231-298): run the walk; when the
selection cannot complete answer the insufficient-funds error, otherwise emit
the destination and change outputs. -/
def UTXOSet.getMinimumSpendable (s : UTXOSet) (aad : AssetAmountDestination)
    (asOf : Nat) (locktime : Nat) (threshold : Nat) :
    Except BuildError AssetAmountDestination :=
  let walked := msWalk asOf s.utxos aad []
  if walked.1.canComplete then
    Except.ok (emitOutputs walked.1 walked.2 locktime threshold)
  else Except.error BuildError.insufficientFunds

/-- Modelled from the spec: `ONEAVAX` — one AVAX in nanoAVAX
(§6 configuration constants; constants.ts is absent from the sources). -/
def ONEAVAX : Nat := 1000000000

/-- Modelled from the spec: `PlatformVMConstants.MINSTAKE` (constants.ts
absent from the sources); §6 names the constant, the value is a placeholder
stake floor in nanoAVAX. -/
def MINSTAKE : Nat := 2000 * ONEAVAX

/-- Modelled from the spec: `bintools.cb58Decode(PlatformChainID)` — the
platform chain id decodes to 32 zero bytes. -/
def platformChainIDBytes : Bytes := List.replicate 32 0

/-- `UTXOSet._feeCheck` (part_000, 225-229): both the fee and its asset are
supplied and the fee is positive. -/
def feeCheck (fee : Option Nat) (feeAssetID : Option Bytes) : Bool :=
  match fee, feeAssetID with
  | some f, some _ => 0 < f
  | _, _ => false

/-- The asset-amount destination assembled by `UTXOSet.buildBaseTx`
(part_000, 356-364) and identically by `UTXOSet.buildExportTx`
(part_000, 497-505): one accumulator when the moved asset pays the fee, else
one per asset with the fee accumulator only under `_feeCheck`. -/
def spendAndFeeAad (toAddresses fromAddresses changeAddresses : List Bytes)
    (assetID : Bytes) (amount : Nat) (fee : Option Nat) (feeAssetID : Bytes) :
    AssetAmountDestination :=
  let aad0 := mkAssetAmountDestination toAddresses fromAddresses changeAddresses
  if assetID = feeAssetID then aad0.addAssetAmount assetID amount fee
  else
    let aad1 := aad0.addAssetAmount assetID amount (some 0)
    if feeCheck fee (some feeAssetID) then aad1.addAssetAmount feeAssetID 0 fee
    else aad1

/-- `BaseTx` (platformvm/basetx.ts): network id, blockchain id, outputs,
inputs and memo. -/
structure BaseTx where
  networkid : Nat
  blockchainid : Bytes
  outs : List TransferableOutput
  ins : List TransferableInput
  memo : Bytes
  deriving DecidableEq

/-- `UTXOSet.buildBaseTx` (part_000, 321-380).  The `undefined` sentinel for a
zero amount is modelled as `none`; thrown errors are `Except.error`. -/
def UTXOSet.buildBaseTx (s : UTXOSet) (networkid : Nat) (blockchainid : Bytes)
    (amount : Nat) (assetID : Bytes)
    (toAddresses fromAddresses : List Bytes)
    (changeAddresses : Option (List Bytes))
    (fee : Option Nat) (feeAssetID : Option Bytes) (memo : Bytes)
    (asOf : Nat) (locktime : Nat) (threshold : Nat) :
    Except BuildError (Option BaseTx) :=
  if toAddresses.length < threshold then
    Except.error BuildError.thresholdExceedsAddresses
  else
    let changeAddresses := changeAddresses.getD toAddresses
    let feeAssetID := feeAssetID.getD assetID
    if amount = 0 then Except.ok none
    else
      let aad := spendAndFeeAad toAddresses fromAddresses changeAddresses
        assetID amount fee feeAssetID
      match s.getMinimumSpendable aad asOf locktime threshold with
      | Except.error e => Except.error e
      | Except.ok aad1 =>
        Except.ok (some { networkid := networkid, blockchainid := blockchainid,
                          outs := aad1.getAllOutputs, ins := aad1.inputs, memo := memo })

/-- `ExportTx` (platformvm exporttx, 1194-1290 of the combined api source):
a base transaction plus the destination chain and the exported outputs. -/
structure ExportTx where
  networkid : Nat
  blockchainid : Bytes
  outs : List TransferableOutput
  ins : List TransferableInput
  memo : Bytes
  destinationChain : Bytes
  exportOuts : List TransferableOutput
  deriving DecidableEq

/-- The tail of `UTXOSet.buildExportTx` once the fee asset is fixed
(part_000, 493-517): default the destination chain, assemble the
accumulators, run coin selection and wrap the result. -/
def buildExportTxCore (s : UTXOSet) (networkid : Nat) (blockchainid : Bytes)
    (amount : Nat) (avaxAssetID : Bytes)
    (toAddresses fromAddresses changeAddresses : List Bytes)
    (destinationChain : Option Bytes) (fee : Option Nat) (feeAssetID : Bytes)
    (memo : Bytes) (asOf : Nat) (locktime : Nat) (threshold : Nat) :
    Except BuildError (Option ExportTx) :=
  let destinationChain := destinationChain.getD platformChainIDBytes
  let aad := spendAndFeeAad toAddresses fromAddresses changeAddresses
    avaxAssetID amount fee feeAssetID
  match s.getMinimumSpendable aad asOf locktime threshold with
  | Except.error e => Except.error e
  | Except.ok aad1 =>
    Except.ok (some { networkid := networkid, blockchainid := blockchainid,
                      outs := aad1.change, ins := aad1.inputs, memo := memo,
                      destinationChain := destinationChain,
                      exportOuts := aad1.outputs })

/-- `UTXOSet.buildExportTx` (part_000, 455-518): change addresses default to
the destination addresses, a zero amount answers the `undefined` sentinel, an
explicit fee asset must match the AVAX asset, and an omitted fee asset
defaults to it. -/
def UTXOSet.buildExportTx (s : UTXOSet) (networkid : Nat) (blockchainid : Bytes)
    (amount : Nat) (avaxAssetID : Bytes)
    (toAddresses fromAddresses : List Bytes)
    (changeAddresses : Option (List Bytes))
    (destinationChain : Option Bytes) (fee : Option Nat)
    (feeAssetID : Option Bytes) (memo : Bytes)
    (asOf : Nat) (locktime : Nat) (threshold : Nat) :
    Except BuildError (Option ExportTx) :=
  let changeAddresses := changeAddresses.getD toAddresses
  if amount = 0 then Except.ok none
  else
    match feeAssetID with
    | none =>
      buildExportTxCore s networkid blockchainid amount avaxAssetID
        toAddresses fromAddresses changeAddresses destinationChain fee
        avaxAssetID memo asOf locktime threshold
    | some f =>
      if f = avaxAssetID then
        buildExportTxCore s networkid blockchainid amount avaxAssetID
          toAddresses fromAddresses changeAddresses destinationChain fee
          f memo asOf locktime threshold
      else Except.error BuildError.feeAssetMismatch

/-- The fee-only coin selection shared by `UTXOSet.buildImportTx`
(part_000, 413-424) and `UTXOSet.buildAddSubnetValidatorTx`
(part_000, 565-576): only under `_feeCheck`, select inputs covering the fee
with the senders also receiving the change. -/
def feeOnlySelection (s : UTXOSet) (fromAddresses changeAddresses : List Bytes)
    (fee : Option Nat) (feeAssetID : Option Bytes) (asOf : Nat) :
    Except BuildError (List TransferableInput × List TransferableOutput) :=
  match fee, feeAssetID with
  | some f, some fid =>
    if 0 < f then
      let aad := (mkAssetAmountDestination fromAddresses fromAddresses
        changeAddresses).addAssetAmount fid 0 (some f)
      match s.getMinimumSpendable aad asOf 0 1 with
      | Except.error e => Except.error e
      | Except.ok aad1 => Except.ok (aad1.inputs, aad1.getAllOutputs)
    else Except.ok ([], [])
  | _, _ => Except.ok ([], [])

/-- `ImportTx` (platformvm/importtx.ts): a base transaction plus the source
chain and the imported inputs. -/
structure ImportTx where
  networkid : Nat
  blockchainid : Bytes
  outs : List TransferableOutput
  ins : List TransferableInput
  memo : Bytes
  sourceChain : Bytes
  importIns : List TransferableInput
  deriving DecidableEq

/-- `UTXOSet.buildImportTx` (part_000, 398-432): a local fee selection only
under `_feeCheck`; the chain id parameter (named `destinationChain` in the
source) defaults to the decoded platform chain id and lands in the
transaction's source chain. -/
def UTXOSet.buildImportTx (s : UTXOSet) (networkid : Nat) (blockchainid : Bytes)
    (fromAddresses : List Bytes) (importIns : List TransferableInput)
    (destinationChain : Option Bytes) (fee : Option Nat)
    (feeAssetID : Option Bytes) (memo : Bytes) (asOf : Nat) :
    Except BuildError ImportTx :=
  match feeOnlySelection s fromAddresses fromAddresses fee feeAssetID asOf with
  | Except.error e => Except.error e
  | Except.ok insOuts =>
    Except.ok { networkid := networkid, blockchainid := blockchainid,
                outs := insOuts.2, ins := insOuts.1, memo := memo,
                sourceChain := destinationChain.getD platformChainIDBytes,
                importIns := importIns }

/-- `AddSubnetValidatorTx` (platformvm/validationtx.ts): base transaction plus
node id, staking window and weight. -/
structure AddSubnetValidatorTx where
  networkid : Nat
  blockchainid : Bytes
  outs : List TransferableOutput
  ins : List TransferableInput
  memo : Bytes
  nodeID : Bytes
  startTime : Nat
  endTime : Nat
  weight : Nat
  deriving DecidableEq

/-- `UTXOSet.buildAddSubnetValidatorTx` (part_000, 541-580).  The source reads
the clock with `UnixNow()`; the clock value is the explicit `now` parameter. -/
def UTXOSet.buildAddSubnetValidatorTx (s : UTXOSet) (networkid : Nat)
    (blockchainid : Bytes) (fromAddresses changeAddresses : List Bytes)
    (nodeID : Bytes) (startTime endTime : Nat) (weight : Nat)
    (fee : Option Nat) (feeAssetID : Option Bytes) (memo : Bytes)
    (asOf : Nat) (now : Nat) :
    Except BuildError AddSubnetValidatorTx :=
  if startTime < now ∨ endTime ≤ startTime then
    Except.error BuildError.addSubnetValidatorBadTimes
  else
    match feeOnlySelection s fromAddresses changeAddresses fee feeAssetID asOf with
    | Except.error e => Except.error e
    | Except.ok insOuts =>
      Except.ok { networkid := networkid, blockchainid := blockchainid,
                  outs := insOuts.2, ins := insOuts.1, memo := memo,
                  nodeID := nodeID, startTime := startTime, endTime := endTime,
                  weight := weight }

/-- `AddDelegatorTx` (platformvm/validationtx.ts): base transaction plus node
id, staking window, stake amount, stake outputs and reward address. -/
structure AddDelegatorTx where
  networkid : Nat
  blockchainid : Bytes
  outs : List TransferableOutput
  ins : List TransferableInput
  memo : Bytes
  nodeID : Bytes
  startTime : Nat
  endTime : Nat
  stakeAmount : Nat
  stakeOuts : List TransferableOutput
  rewardAddress : Bytes
  deriving DecidableEq

/-- `UTXOSet.buildAddDelegatorTx` (part_000, 602-649).  The fee asset id is
dereferenced unconditionally in the source, so it is a plain parameter here;
the clock value is the explicit `now` parameter. -/
def UTXOSet.buildAddDelegatorTx (s : UTXOSet) (networkid : Nat)
    (blockchainid : Bytes) (avaxAssetID : Bytes)
    (fromAddresses changeAddresses : List Bytes) (nodeID : Bytes)
    (startTime endTime : Nat) (stakeAmount : Nat) (rewardAddress : Bytes)
    (fee : Option Nat) (feeAssetID : Bytes) (memo : Bytes)
    (asOf : Nat) (now : Nat) :
    Except BuildError AddDelegatorTx :=
  if startTime < now ∨ endTime ≤ startTime then
    Except.error BuildError.addDelegatorBadTimes
  else
    let aad := spendAndFeeAad fromAddresses fromAddresses changeAddresses
      avaxAssetID stakeAmount fee feeAssetID
    match s.getMinimumSpendable aad asOf 0 1 with
    | Except.error e => Except.error e
    | Except.ok aad1 =>
      Except.ok { networkid := networkid, blockchainid := blockchainid,
                  outs := aad1.change, ins := aad1.inputs, memo := memo,
                  nodeID := nodeID, startTime := startTime, endTime := endTime,
                  stakeAmount := stakeAmount, stakeOuts := aad1.outputs,
                  rewardAddress := rewardAddress }

/-- `AddValidatorTx` (platformvm/validationtx.ts): an `AddDelegatorTx` body
plus the delegation fee share. -/
structure AddValidatorTx where
  networkid : Nat
  blockchainid : Bytes
  outs : List TransferableOutput
  ins : List TransferableInput
  memo : Bytes
  nodeID : Bytes
  startTime : Nat
  endTime : Nat
  stakeAmount : Nat
  stakeOuts : List TransferableOutput
  rewardAddress : Bytes
  delegationFee : Rat
  deriving DecidableEq

/-- `UTXOSet.buildAddValidatorTx` (part_000, 672-728): time window check, then
the minimum-stake check, then the delegation-fee range check, then coin
selection.  `delegationFee` is a JS number with decimals, modelled as a
rational; the clock value is the explicit `now` parameter. -/
def UTXOSet.buildAddValidatorTx (s : UTXOSet) (networkid : Nat)
    (blockchainid : Bytes) (avaxAssetID : Bytes)
    (fromAddresses changeAddresses : List Bytes) (nodeID : Bytes)
    (startTime endTime : Nat) (stakeAmount : Nat) (rewardAddress : Bytes)
    (delegationFee : Rat) (fee : Option Nat) (feeAssetID : Bytes)
    (memo : Bytes) (asOf : Nat) (now : Nat) :
    Except BuildError AddValidatorTx :=
  if startTime < now ∨ endTime ≤ startTime then
    Except.error BuildError.addValidatorBadTimes
  else if stakeAmount < MINSTAKE then
    Except.error BuildError.stakeBelowMinimum
  else if 100 < delegationFee ∨ delegationFee < 0 then
    Except.error BuildError.delegationFeeOutOfRange
  else
    let aad := spendAndFeeAad fromAddresses fromAddresses changeAddresses
      avaxAssetID stakeAmount fee feeAssetID
    match s.getMinimumSpendable aad asOf 0 1 with
    | Except.error e => Except.error e
    | Except.ok aad1 =>
      Except.ok { networkid := networkid, blockchainid := blockchainid,
                  outs := aad1.change, ins := aad1.inputs, memo := memo,
                  nodeID := nodeID, startTime := startTime, endTime := endTime,
                  stakeAmount := stakeAmount, stakeOuts := aad1.outputs,
                  rewardAddress := rewardAddress, delegationFee := delegationFee }

/-- The unsigned transaction as consumed by the goose-egg check: its
transferable inputs and outputs. -/
structure UnsignedTx where
  ins : List TransferableInput
  outs : List TransferableOutput
  deriving DecidableEq

/-- Modelled from the spec: `StandardUnsignedTx.getOutputTotal`
(common/tx.ts, absent from the sources): total amount of the amount-bearing
outputs of the given asset. -/
def UnsignedTx.getOutputTotal (utx : UnsignedTx) (assetID : Bytes) : Nat :=
  ((utx.outs.filter (fun o => decide (o.assetID = assetID) && o.output.isAmount)).map
    (fun o => o.output.getAmount)).sum

/-- Modelled from the spec: `StandardUnsignedTx.getInputTotal`: total amount
of the inputs of the given asset. -/
def UnsignedTx.getInputTotal (utx : UnsignedTx) (assetID : Bytes) : Nat :=
  ((utx.ins.filter (fun i => decide (i.assetID = assetID))).map
    (fun i => i.input.amount)).sum

/-- Modelled from the spec: `getBurn` — inputs minus outputs per asset
(glossary: Burn); the difference may be negative, hence `Int`. -/
def UnsignedTx.getBurn (utx : UnsignedTx) (assetID : Bytes) : Int :=
  (utx.getInputTotal assetID : Int) - (utx.getOutputTotal assetID : Int)

/-- `AVMAPI.checkGooseEgg` (avm/api.ts, 184-193) and
`PlatformVMAPI.checkGooseEgg` (platformvm/api.ts, 180-189): accept when the
fee is at most ten AVAX or at most the AVAX output total. -/
def checkGooseEgg (utx : UnsignedTx) (avaxAssetID : Bytes) : Bool :=
  let outputTotal := utx.getOutputTotal avaxAssetID
  let fee := utx.getBurn avaxAssetID
  if fee ≤ ((10 * ONEAVAX : Nat) : Int) ∨ fee ≤ (outputTotal : Int) then true
  else false

/-- The gate every façade build helper applies to the built transaction
(e.g. avm/api.ts 624-627, platformvm/api.ts 1132-1135): a failed goose-egg
check throws. -/
def gooseEggGate (utx : UnsignedTx) (avaxAssetID : Bytes) :
    Except BuildError UnsignedTx :=
  if !(checkGooseEgg utx avaxAssetID) then Except.error BuildError.gooseEggFailed
  else Except.ok utx

/-- A JS `Buffer | string` argument; a string carries its character codes. -/
inductive ChainArg where
  | buf (b : Bytes)
  | str (s : List Nat)
  deriving DecidableEq

/-- The source-chain resolution of `AVMAPI.buildImportTx` (avm/api.ts,
727-731) and `PlatformVMAPI.buildImportTx` (platformvm/api.ts, 823-827): a
string argument is replaced by the decoded `PlatformChainID`, whatever its
value; a buffer passes through. -/
def resolveSourceChain : ChainArg → Bytes
  | .str _ => platformChainIDBytes
  | .buf b => b

/-- The façade `buildImportTx` of both APIs after the remote UTXO fetch (the
fetched imports are the `importIns` parameter): resolve the source chain
argument and delegate to `UTXOSet.buildImportTx`. -/
def facadeBuildImportTx (s : UTXOSet) (networkid : Nat) (blockchainid : Bytes)
    (owners : List Bytes) (importIns : List TransferableInput)
    (sourceChain : ChainArg) (fee : Option Nat) (feeAssetID : Option Bytes)
    (memo : Bytes) (asOf : Nat) : Except BuildError ImportTx :=
  s.buildImportTx networkid blockchainid owners importIns
    (some (resolveSourceChain sourceChain)) fee feeAssetID memo asOf

/-- Modelled from the spec: one per-chain entry of the `Defaults` table
(§6: networkID → chainID → alias, fee, ...). -/
structure ChainDefaults where
  fee : Nat
  deriving DecidableEq

/-- Modelled from the spec: the per-network entry of the `Defaults` table,
with its X-chain and P-chain records. -/
structure NetworkDefaults where
  x : ChainDefaults
  p : ChainDefaults
  deriving DecidableEq

/-- Modelled from the spec: the static `Defaults.network` table
(utils/constants.ts, absent from the sources); the network ids are the known
ones and the fee values are placeholders. -/
def DefaultsNetwork : List (Nat × NetworkDefaults) :=
  [(1, { x := { fee := 1000000 }, p := { fee := 2000000 } }),
   (2, { x := { fee := 1000000 }, p := { fee := 2000000 } }),
   (3, { x := { fee := 1000000 }, p := { fee := 2000000 } }),
   (4, { x := { fee := 1000000 }, p := { fee := 2000000 } }),
   (5, { x := { fee := 1000000 }, p := { fee := 2000000 } }),
   (12345, { x := { fee := 1000000 }, p := { fee := 2000000 } })]

/-- Lookup of a network entry in the `Defaults` table. -/
def defaultsLookup (netid : Nat) : Option NetworkDefaults :=
  (DefaultsNetwork.find? (fun p => decide (p.1 = netid))).map (fun p => p.2)

/-- `PlatformVMAPI.getDefaultFee` (platformvm/api.ts, 124-126): the fee of the
network's X-chain entry, 0 for an unknown network. -/
def getDefaultFee (netid : Nat) : Nat :=
  match defaultsLookup netid with
  | some nd => nd.x.fee
  | none => 0

/-- The fee-relevant state of a `PlatformVMAPI` façade: its network id and the
write-once fee cache. -/
structure PlatformVMState where
  networkID : Nat
  fee : Option Nat
  deriving DecidableEq

/-- `PlatformVMAPI.getFee` (platformvm/api.ts, 133-138): populate the cache
from `getDefaultFee` on first use, then answer the cached value. -/
def getFee (st : PlatformVMState) : Nat × PlatformVMState :=
  match st.fee with
  | some f => (f, st)
  | none =>
    let f := getDefaultFee st.networkID
    (f, { st with fee := some f })

/-- A concrete 20-byte address (for the scenario instances). -/
def addrX : Bytes := List.replicate 20 1

/-- A second concrete 20-byte address, byte-wise above `addrX`. -/
def addrY : Bytes := List.replicate 20 2

/-- A concrete 32-byte asset id. -/
def assetA : Bytes := List.replicate 32 0

/-- A second concrete 32-byte asset id, byte-wise above `assetA`. -/
def assetB : Bytes := List.replicate 32 1

/-- A transferable output on `assetA` whose spec claim key is large: amount 5. -/
def c1OutA : TransferableOutput :=
  { assetID := assetA, output := .secp 7 5 (mkOutputOwners [] 0 1) }

/-- A transferable output on `assetB` whose spec claim key is small: amount 3. -/
def c1OutB : TransferableOutput :=
  { assetID := assetB, output := .secp 7 3 (mkOutputOwners [] 0 1) }

theorem bufferCompare_swap : ∀ (a b : Bytes),
    (bufferCompare a b).swap = bufferCompare b a
  | [], [] => rfl
  | [], _ :: _ => rfl
  | _ :: _, [] => rfl
  | a :: as, b :: bs => by
    simp only [bufferCompare]
    rcases Nat.lt_trichotomy a b with h | h | h
    · simp [h, Nat.lt_asymm h, Ordering.swap]
    · subst h
      simp only [Nat.lt_irrefl, if_false]
      exact bufferCompare_swap as bs
    · simp [h, Nat.lt_asymm h, Ordering.swap]

theorem bufferCompare_eq_iff : ∀ (a b : Bytes),
    bufferCompare a b = Ordering.eq ↔ a = b
  | [], [] => by simp [bufferCompare]
  | [], _ :: _ => by simp [bufferCompare]
  | _ :: _, [] => by simp [bufferCompare]
  | a :: as, b :: bs => by
    simp only [bufferCompare]
    rcases Nat.lt_trichotomy a b with h | h | h
    · simp [h, Nat.ne_of_lt h]
    · subst h
      simp [Nat.lt_irrefl, bufferCompare_eq_iff as bs]
    · simp [h, Nat.lt_asymm h, (Nat.ne_of_lt h).symm]

theorem bufferCompare_nil_right : ∀ (b : Bytes),
    bufferCompare b [] ≠ Ordering.lt
  | [] => by simp [bufferCompare]
  | _ :: _ => by simp [bufferCompare]

theorem bufferCompare_lt_trans : ∀ (a b c : Bytes),
    bufferCompare a b = Ordering.lt → bufferCompare b c = Ordering.lt →
    bufferCompare a c = Ordering.lt
  | _, b, [] => fun _ h2 => absurd h2 (bufferCompare_nil_right b)
  | [], _, _ :: _ => fun _ _ => rfl
  | _ :: _, [], _ :: _ => fun h1 _ => by simp [bufferCompare] at h1
  | a :: as, b :: bs, c :: cs => fun h1 h2 => by
    simp only [bufferCompare] at h1 h2 ⊢
    rcases Nat.lt_trichotomy a b with hab | hab | hab
    · rcases Nat.lt_trichotomy b c with hbc | hbc | hbc
      · simp [Nat.lt_trans hab hbc]
      · subst hbc
        simp [hab]
      · rw [if_neg (Nat.lt_asymm hbc), if_pos hbc] at h2
        cases h2
    · subst hab
      rcases Nat.lt_trichotomy a c with hac | hac | hac
      · simp [hac]
      · subst hac
        rw [if_neg (Nat.lt_irrefl a), if_neg (Nat.lt_irrefl a)] at h1
        rw [if_neg (Nat.lt_irrefl a), if_neg (Nat.lt_irrefl a)] at h2
        rw [if_neg (Nat.lt_irrefl a), if_neg (Nat.lt_irrefl a)]
        exact bufferCompare_lt_trans as bs cs h1 h2
      · rw [if_neg (Nat.lt_asymm hac), if_pos hac] at h2
        cases h2
    · rw [if_neg (Nat.lt_asymm hab), if_pos hab] at h1
      cases h1

theorem byteLe_total (a b : Bytes) : byteLe a b ∨ byteLe b a := by
  by_cases h : bufferCompare a b = Ordering.gt
  · right
    have hs := bufferCompare_swap a b
    rw [h] at hs
    show bufferCompare b a ≠ Ordering.gt
    rw [← hs]
    decide
  · exact Or.inl h

theorem bufferCompare_le_cases (a b : Bytes) (h : byteLe a b) :
    bufferCompare a b = Ordering.lt ∨ a = b := by
  cases hab : bufferCompare a b with
  | lt => exact Or.inl rfl
  | eq => exact Or.inr ((bufferCompare_eq_iff a b).mp hab)
  | gt => exact absurd hab h

theorem byteLe_trans (a b c : Bytes) : byteLe a b → byteLe b c → byteLe a c := by
  intro h1 h2
  rcases bufferCompare_le_cases a b h1 with h1l | rfl
  · rcases bufferCompare_le_cases b c h2 with h2l | rfl
    · have h3 := bufferCompare_lt_trans a b c h1l h2l
      show bufferCompare a c ≠ Ordering.gt
      rw [h3]
      decide
    · show bufferCompare a b ≠ Ordering.gt
      rw [h1l]
      decide
  · exact h2

/-- C1 counterexample: the comparator of `StandardTransferableOutput`
(src/src/common/output.ts 303-307) does not order by
`outputTypeID ‖ output bytes` alone — for the two concrete outputs below it
answers `lt` although that key of the first is strictly above that of the
second, because it compares the asset id first. -/
theorem c1_counterexample :
    TransferableOutput.comparator c1OutA c1OutB = Ordering.lt ∧
      bufferCompare (specClaimSortKey c1OutA) (specClaimSortKey c1OutB) =
        Ordering.gt := by
  decide

/-- C1 (amended): every `exportOuts` list sorted by `ExportTx.toBuffer` with
`TransferableOutput.comparator` is ascending in the key
`assetID ‖ outputTypeID_be(4) ‖ output bytes` — the full serialized form,
with the asset id in front. -/
theorem c1_exportOuts_sorted (l : List TransferableOutput) :
    List.Sorted
      (fun a b =>
        bufferCompare
          (a.assetID ++ u32be a.output.getOutputID ++ a.output.toBuffer)
          (b.assetID ++ u32be b.output.getOutputID ++ b.output.toBuffer) ≠
          Ordering.gt)
      (sortTransferableOutputs l) := by
  letI : IsTrans TransferableOutput transferableOutLe :=
    ⟨fun a b c h1 h2 => byteLe_trans _ _ _ h1 h2⟩
  letI : IsTotal TransferableOutput transferableOutLe :=
    ⟨fun a b => byteLe_total _ _⟩
  exact List.sorted_insertionSort transferableOutLe l

/-- C2: `checkGooseEgg` accepts exactly when the fee is at most ten AVAX or at
most the AVAX output total, and the façade gate errors exactly when the check
answers false. -/
theorem c2_goose_egg (utx : UnsignedTx) (avaxAssetID : Bytes) :
    (checkGooseEgg utx avaxAssetID = true ↔
      (utx.getBurn avaxAssetID ≤ ((10 * ONEAVAX : Nat) : Int) ∨
        utx.getBurn avaxAssetID ≤ (utx.getOutputTotal avaxAssetID : Int))) ∧
    (gooseEggGate utx avaxAssetID = Except.error BuildError.gooseEggFailed ↔
      checkGooseEgg utx avaxAssetID = false) := by
  constructor
  · by_cases h : utx.getBurn avaxAssetID ≤ ((10 * ONEAVAX : Nat) : Int) ∨
        utx.getBurn avaxAssetID ≤ (utx.getOutputTotal avaxAssetID : Int)
    · simp [checkGooseEgg, h]
    · simp [checkGooseEgg, h]
  · cases h : checkGooseEgg utx avaxAssetID
    · simp [gooseEggGate, h]
    · simp [gooseEggGate, h]

/-- C3: whenever `asOf ≤ locktime` the spender selection is empty, and for the
two-address owner set of scenario S2 (locktime 0, threshold 1, owners X and Y)
the threshold is met by Y at `asOf = 1` but not at `asOf = 0`. -/
theorem c3_locktime_gate :
    (∀ (o : OutputOwners) (cands : List Bytes) (asOf : Nat),
        asOf ≤ o.locktime → o.getSpenders cands asOf = []) ∧
      OutputOwners.meetsThreshold (mkOutputOwners [addrX, addrY] 0 1) [addrY] 0 =
        false ∧
      OutputOwners.meetsThreshold (mkOutputOwners [addrX, addrY] 0 1) [addrY] 1 =
        true := by
  refine ⟨?_, by decide, by decide⟩
  intro o cands asOf h
  unfold OutputOwners.getSpenders
  rw [if_pos h]

theorem c3_locktime_gate_witness :
    OutputOwners.getSpenders (mkOutputOwners [addrX] 5 1) [addrX] 3 = [] :=
  c3_locktime_gate.1 (mkOutputOwners [addrX] 5 1) [addrX] 3 (by decide)

theorem spenderScanCands_eq (owner : Bytes) (threshold : Nat) :
    ∀ (cands acc : List Bytes),
      spenderScanCands owner threshold acc cands =
        acc ++ (cands.filter (fun c => decide (c = owner))).take
          (threshold - acc.length)
  | [], acc => by simp [spenderScanCands]
  | c :: rest, acc => by
    by_cases hlen : acc.length < threshold
    · by_cases hc : c = owner
      · rw [show spenderScanCands owner threshold acc (c :: rest) =
            spenderScanCands owner threshold (acc ++ [c]) rest from by
          simp [spenderScanCands, hlen, hc]]
        rw [spenderScanCands_eq owner threshold rest (acc ++ [c])]
        obtain ⟨k, hk⟩ : ∃ k, threshold - acc.length = k + 1 :=
          ⟨threshold - acc.length - 1, by omega⟩
        have hk2 : threshold - (acc ++ [c]).length = k := by
          simp only [List.length_append, List.length_cons, List.length_nil]
          omega
        simp [hc, hk, hk2, List.filter_cons]
        omega
      · rw [show spenderScanCands owner threshold acc (c :: rest) =
            spenderScanCands owner threshold acc rest from by
          simp [spenderScanCands, hlen, hc]]
        rw [spenderScanCands_eq owner threshold rest acc]
        simp [List.filter_cons, hc]
    · rw [show spenderScanCands owner threshold acc (c :: rest) = acc from by
        simp [spenderScanCands, hlen]]
      rw [show threshold - acc.length = 0 from by omega]
      simp

theorem spenderScanOwners_eq (cands : List Bytes) (threshold : Nat) :
    ∀ (owners acc : List Bytes),
      spenderScanOwners cands threshold acc owners =
        acc ++ ((owners.flatMap
            (fun o => cands.filter (fun c => decide (c = o)))).take
          (threshold - acc.length))
  | [], acc => by simp [spenderScanOwners]
  | o :: rest, acc => by
    by_cases hlen : acc.length < threshold
    · rw [show spenderScanOwners cands threshold acc (o :: rest) =
          spenderScanOwners cands threshold
            (spenderScanCands o threshold acc cands) rest from by
        simp [spenderScanOwners, hlen]]
      rw [spenderScanOwners_eq cands threshold rest _]
      rw [spenderScanCands_eq o threshold cands acc]
      rw [List.flatMap_cons, List.take_append_eq_append_take,
        List.append_assoc]
      have hlen2 : threshold -
          (acc ++ (List.filter (fun c => decide (c = o)) cands).take
            (threshold - acc.length)).length =
          threshold - acc.length -
            (List.filter (fun c => decide (c = o)) cands).length := by
        simp only [List.length_append, List.length_take]
        omega
      rw [hlen2]
    · rw [show spenderScanOwners cands threshold acc (o :: rest) = acc from by
        simp [spenderScanOwners, hlen]]
      rw [show threshold - acc.length = 0 from by omega]
      simp

/-- C4 counterexample: for an owner set with one owner Y and threshold 2, a
candidate list repeating Y twice makes `getSpenders` answer Y twice — one
candidate address contributes two qualified entries. -/
theorem c4_counterexample :
    OutputOwners.getSpenders (mkOutputOwners [addrY] 0 2) [addrY, addrY] 1 =
        [addrY, addrY] ∧
      List.count addrY
        (OutputOwners.getSpenders (mkOutputOwners [addrY] 0 2) [addrY, addrY] 1) =
        2 := by
  decide

/-- C4 (amended): past the locktime, the qualified spenders are exactly the
first `threshold` entries of the walk that takes the owner addresses in stored
order and, for each, every matching occurrence in the candidate list — so
duplicate candidates contribute once per occurrence, collection is in
owner-list order, and it stops at `threshold` matches. -/
theorem c4_spenders_shape (o : OutputOwners) (cands : List Bytes) (asOf : Nat)
    (h : o.locktime < asOf) :
    o.getSpenders cands asOf =
      (o.addresses.flatMap
          (fun a => cands.filter (fun c => decide (c = a)))).take o.threshold := by
  unfold OutputOwners.getSpenders
  rw [if_neg (by omega)]
  simpa using spenderScanOwners_eq cands o.threshold o.addresses []

theorem c4_spenders_shape_witness :
    OutputOwners.getSpenders (mkOutputOwners [addrX, addrY] 0 2) [addrY, addrX] 1 =
      (((mkOutputOwners [addrX, addrY] 0 2).addresses.flatMap
          (fun a => [addrY, addrX].filter (fun c => decide (c = a)))).take 2) :=
  c4_spenders_shape (mkOutputOwners [addrX, addrY] 0 2) [addrY, addrX] 1
    (by decide)

theorem spendAmount_spent_burned (am : AssetAmount) (a : Nat) :
    (am.spendAmount a).spent + (am.spendAmount a).burned =
      am.spent + am.burned + a := by
  unfold AssetAmount.spendAmount
  simp only
  omega

theorem lookupAsset_spendFirst_same (k : Bytes) (a : Nat) :
    ∀ (l : List AssetAmount) (am : AssetAmount), lookupAsset k l = some am →
      lookupAsset k (spendFirstAsset k a l) = some (am.spendAmount a)
  | [], am => by simp [lookupAsset]
  | am0 :: rest, am => by
    by_cases h0 : am0.assetID = k
    · intro h
      rw [show lookupAsset k (am0 :: rest) = some am0 from by
        simp [lookupAsset, h0]] at h
      cases h
      simp [spendFirstAsset, h0, lookupAsset, AssetAmount.spendAmount]
    · intro h
      rw [show lookupAsset k (am0 :: rest) = lookupAsset k rest from by
        simp [lookupAsset, h0]] at h
      rw [show spendFirstAsset k a (am0 :: rest) =
          am0 :: spendFirstAsset k a rest from by simp [spendFirstAsset, h0]]
      rw [show lookupAsset k (am0 :: spendFirstAsset k a rest) =
          lookupAsset k (spendFirstAsset k a rest) from by
        simp [lookupAsset, h0]]
      exact lookupAsset_spendFirst_same k a rest am h

theorem lookupAsset_spendFirst_ne (k k1 : Bytes) (a : Nat) (hne : k ≠ k1) :
    ∀ (l : List AssetAmount),
      lookupAsset k (spendFirstAsset k1 a l) = lookupAsset k l
  | [] => by simp [spendFirstAsset]
  | am0 :: rest => by
    by_cases h0 : am0.assetID = k1
    · rw [show spendFirstAsset k1 a (am0 :: rest) =
          am0.spendAmount a :: rest from by simp [spendFirstAsset, h0]]
      have h1 : (am0.spendAmount a).assetID = am0.assetID := rfl
      have h2 : am0.assetID ≠ k := by
        rw [h0]
        exact fun hh => hne hh.symm
      simp [lookupAsset, h1, h2]
    · rw [show spendFirstAsset k1 a (am0 :: rest) =
          am0 :: spendFirstAsset k1 a rest from by simp [spendFirstAsset, h0]]
      by_cases h2 : am0.assetID = k
      · simp [lookupAsset, h2]
      · simp only [lookupAsset, h2, if_neg]
        exact lookupAsset_spendFirst_ne k k1 a hne rest

theorem lookupAsset_mem (k : Bytes) :
    ∀ (l : List AssetAmount) (am : AssetAmount),
      lookupAsset k l = some am → am ∈ l
  | [], am => by simp [lookupAsset]
  | am0 :: rest, am => by
    by_cases h0 : am0.assetID = k
    · intro h
      rw [show lookupAsset k (am0 :: rest) = some am0 from by
        simp [lookupAsset, h0]] at h
      cases h
      exact List.mem_cons_self _ _
    · intro h
      rw [show lookupAsset k (am0 :: rest) = lookupAsset k rest from by
        simp [lookupAsset, h0]] at h
      exact List.mem_cons_of_mem _ (lookupAsset_mem k rest am h)

theorem not_canComplete_of_unfinished (aad : AssetAmountDestination) (k : Bytes)
    (am : AssetAmount) (h : lookupAsset k aad.amounts = some am)
    (hnf : am.isFinished = false) : aad.canComplete = false := by
  cases hc : aad.canComplete
  · rfl
  · exfalso
    have hall := List.all_eq_true.mp hc _ (lookupAsset_mem k _ _ h)
    rw [hnf] at hall
    cases hall

theorem spendableTotal_cons (senders : List Bytes) (asOf : Nat) (k : Bytes)
    (u : UTXO) (rest : List UTXO) :
    spendableTotal senders asOf k (u :: rest) =
      (if utxoQualifies senders asOf k u then u.output.getAmount else 0) +
        spendableTotal senders asOf k rest := by
  unfold spendableTotal
  by_cases hq : utxoQualifies senders asOf k u <;> simp [List.filter_cons, hq]

theorem msWalk_invariant (asOf : Nat) :
    ∀ (utxos : List UTXO) (aad : AssetAmountDestination)
      (outids : List (Bytes × Nat)) (k : Bytes) (am : AssetAmount),
      lookupAsset k aad.amounts = some am →
      ∃ am', lookupAsset k (msWalk asOf utxos aad outids).1.amounts = some am' ∧
        am'.amount = am.amount ∧ am'.burn = am.burn ∧
        am'.spent + am'.burned ≤
          am.spent + am.burned + spendableTotal aad.senders asOf k utxos
  | [], aad, outids, k, am => fun h =>
    ⟨am, by simpa [msWalk] using h, rfl, rfl, by simp [spendableTotal]⟩
  | u :: rest, aad, outids, k, am => fun h => by
    by_cases hcc : aad.canComplete
    · refine ⟨am, ?_, rfl, rfl, Nat.le_add_right _ _⟩
      rw [show (msWalk asOf (u :: rest) aad outids).1 = aad from by
        simp [msWalk, hcc]]
      exact h
    · rw [spendableTotal_cons]
      cases hout : u.output with
      | other oid body =>
        have hq : utxoQualifies aad.senders asOf k u = false := by
          simp [utxoQualifies, hout]
        rw [show msWalk asOf (u :: rest) aad outids =
            msWalk asOf rest aad outids from by
          simp [msWalk, hcc, hout]]
        rw [hq]
        simpa using msWalk_invariant asOf rest aad outids k am h
      | secp oid amount owners =>
        by_cases hguard : (aad.assetExists u.assetID &&
            owners.meetsThreshold aad.senders asOf) = true
        · obtain ⟨am0, ham0⟩ : ∃ am0,
              aad.getAssetAmount u.assetID = some am0 := by
            have hex := (Bool.and_eq_true _ _).mp hguard |>.1
            unfold AssetAmountDestination.assetExists at hex
            exact Option.isSome_iff_exists.mp hex
          by_cases hfin : am0.isFinished
          · rw [show msWalk asOf (u :: rest) aad outids =
                msWalk asOf rest aad outids from by
              simp [msWalk, hcc, hout, hguard, ham0, hfin]]
            obtain ⟨am', h1, h2, h3, h4⟩ :=
              msWalk_invariant asOf rest aad outids k am h
            exact ⟨am', h1, h2, h3, by
              by_cases hq : utxoQualifies aad.senders asOf k u <;>
                simp [hq] <;> omega⟩
          · set spenders := owners.getSpenders aad.senders asOf with hsp
            set xferin : TransferableInput :=
              { txid := u.txid, outputidx := u.outputidx, assetID := u.assetID,
                input := { amount := amount,
                           sigIdxs := sigIdxsOf owners spenders } } with hxf
            set aad1 : AssetAmountDestination :=
              { aad with amounts := spendFirstAsset u.assetID amount aad.amounts,
                         inputs := aad.inputs ++ [xferin] } with haad1
            rw [show msWalk asOf (u :: rest) aad outids =
                msWalk asOf rest aad1 (outidsSet outids u.assetID oid) from by
              simp only [msWalk, hcc, hout, hguard, ham0, hfin]
              rfl]
            have hsend : aad1.senders = aad.senders := rfl
            by_cases hk : u.assetID = k
            · subst hk
              have ham : am0 = am := by
                unfold AssetAmountDestination.getAssetAmount at ham0
                rw [h] at ham0
                cases ham0
                rfl
              subst ham
              have hlook1 : lookupAsset u.assetID aad1.amounts =
                  some (am0.spendAmount amount) := by
                exact lookupAsset_spendFirst_same u.assetID amount aad.amounts
                  am0 h
              obtain ⟨am', h1, h2, h3, h4⟩ :=
                msWalk_invariant asOf rest aad1
                  (outidsSet outids u.assetID oid) u.assetID
                  (am0.spendAmount amount) hlook1
              refine ⟨am', h1, h2, h3, ?_⟩
              have hq : utxoQualifies aad.senders asOf u.assetID u = true := by
                have hmt := (Bool.and_eq_true _ _).mp hguard |>.2
                simp [utxoQualifies, hout, hmt]
              rw [hq, if_pos rfl]
              rw [hsend] at h4
              have hsb := spendAmount_spent_burned am0 amount
              rw [show (Output.secp oid amount owners).getAmount = amount from
                rfl]
              omega
            · have hlook1 : lookupAsset k aad1.amounts =
                  lookupAsset k aad.amounts :=
                lookupAsset_spendFirst_ne k u.assetID amount
                  (fun hh => hk hh.symm) aad.amounts
              rw [h] at hlook1
              obtain ⟨am', h1, h2, h3, h4⟩ :=
                msWalk_invariant asOf rest aad1
                  (outidsSet outids u.assetID oid) k am hlook1
              refine ⟨am', h1, h2, h3, ?_⟩
              have hq : utxoQualifies aad.senders asOf k u = false := by
                simp [utxoQualifies, hk]
              rw [hq]
              rw [hsend] at h4
              omega
        · rw [show msWalk asOf (u :: rest) aad outids =
              msWalk asOf rest aad outids from by
            simp [msWalk, hcc, hout, hguard]]
          obtain ⟨am', h1, h2, h3, h4⟩ :=
            msWalk_invariant asOf rest aad outids k am h
          refine ⟨am', h1, h2, h3, ?_⟩
          by_cases hq : utxoQualifies aad.senders asOf k u <;> simp [hq] <;>
            omega

/-- C5: when some registered asset's fresh targets exceed the spendable total
of the set, `getMinimumSpendable` answers the insufficient-funds error after
walking all UTXOs, and `buildBaseTx` propagates that error instead of
returning a transaction. -/
theorem c5_insufficient_funds :
    (∀ (s : UTXOSet) (aad : AssetAmountDestination)
        (asOf locktime threshold : Nat) (k : Bytes) (am : AssetAmount),
        lookupAsset k aad.amounts = some am → am.spent = 0 → am.burned = 0 →
        spendableTotal aad.senders asOf k s.utxos < am.amount + am.burn →
        s.getMinimumSpendable aad asOf locktime threshold =
          Except.error BuildError.insufficientFunds) ∧
    (∀ (s : UTXOSet) (networkid : Nat) (blockchainid : Bytes) (amount : Nat)
        (assetID : Bytes) (toA frm : List Bytes) (chg : Option (List Bytes))
        (fee : Option Nat) (feeAssetID : Option Bytes) (memo : Bytes)
        (asOf locktime threshold : Nat),
        ¬ toA.length < threshold → amount ≠ 0 →
        s.getMinimumSpendable
            (spendAndFeeAad toA frm (chg.getD toA) assetID amount fee
              (feeAssetID.getD assetID)) asOf locktime threshold =
          Except.error BuildError.insufficientFunds →
        s.buildBaseTx networkid blockchainid amount assetID toA frm chg fee
            feeAssetID memo asOf locktime threshold =
          Except.error BuildError.insufficientFunds) := by
  constructor
  · intro s aad asOf locktime threshold k am h hs hb hins
    obtain ⟨am', h1, h2, h3, h4⟩ := msWalk_invariant asOf s.utxos aad [] k am h
    have hnf : am'.isFinished = false := by
      rw [hs, hb] at h4
      simp only [AssetAmount.isFinished, h2, h3, Bool.and_eq_false_iff,
        decide_eq_false_iff_not]
      omega
    have hnc := not_canComplete_of_unfinished _ k am' h1 hnf
    simp [UTXOSet.getMinimumSpendable, hnc]
  · intro s networkid blockchainid amount assetID toA frm chg fee feeAssetID
      memo asOf locktime threshold hthr hamt hmin
    simp [UTXOSet.buildBaseTx, hthr, hamt, hmin]

theorem c5_insufficient_funds_witness :
    UTXOSet.getMinimumSpendable ⟨[]⟩
        ((mkAssetAmountDestination [addrX] [addrX] [addrX]).addAssetAmount
          assetA 5 none) 1 0 1 = Except.error BuildError.insufficientFunds ∧
      UTXOSet.buildBaseTx ⟨[]⟩ 1 assetA 5 assetA [addrX] [addrX] none none none
          [] 1 0 1 = Except.error BuildError.insufficientFunds :=
  ⟨c5_insufficient_funds.1 ⟨[]⟩ _ 1 0 1 assetA
      { assetID := assetA, amount := 5, burn := 0, spent := 0, burned := 0 }
      (by decide) rfl rfl (by decide),
    c5_insufficient_funds.2 ⟨[]⟩ 1 assetA 5 assetA [addrX] [addrX] none none
      none [] 1 0 1 (by decide) (by decide) (by rfl)⟩

/-- C6 (amended): each staking builder raises its invalid-time error iff
`startTime < now` or `endTime ≤ startTime`; in particular a start one second
before the clock raises it, while a start equal to the clock value passes the
guard. -/
theorem c6_stake_window :
    (∀ (s : UTXOSet) (networkid : Nat) (blockchainid avaxAssetID : Bytes)
        (frm chg : List Bytes) (nodeID : Bytes)
        (startTime endTime stakeAmount : Nat) (rewardAddress : Bytes)
        (delegationFee : Rat) (fee : Option Nat) (feeAssetID : Bytes)
        (memo : Bytes) (asOf now : Nat),
        startTime < now ∨ endTime ≤ startTime →
        s.buildAddValidatorTx networkid blockchainid avaxAssetID frm chg nodeID
            startTime endTime stakeAmount rewardAddress delegationFee fee
            feeAssetID memo asOf now =
          Except.error BuildError.addValidatorBadTimes) ∧
    (∀ (s : UTXOSet) (networkid : Nat) (blockchainid avaxAssetID : Bytes)
        (frm chg : List Bytes) (nodeID : Bytes)
        (startTime endTime stakeAmount : Nat) (rewardAddress : Bytes)
        (fee : Option Nat) (feeAssetID : Bytes) (memo : Bytes) (asOf now : Nat),
        startTime < now ∨ endTime ≤ startTime →
        s.buildAddDelegatorTx networkid blockchainid avaxAssetID frm chg nodeID
            startTime endTime stakeAmount rewardAddress fee feeAssetID memo
            asOf now =
          Except.error BuildError.addDelegatorBadTimes) ∧
    (∀ (s : UTXOSet) (networkid : Nat) (blockchainid : Bytes)
        (frm chg : List Bytes) (nodeID : Bytes)
        (startTime endTime weight : Nat) (fee : Option Nat)
        (feeAssetID : Option Bytes) (memo : Bytes) (asOf now : Nat),
        startTime < now ∨ endTime ≤ startTime →
        s.buildAddSubnetValidatorTx networkid blockchainid frm chg nodeID
            startTime endTime weight fee feeAssetID memo asOf now =
          Except.error BuildError.addSubnetValidatorBadTimes) := by
  refine ⟨?_, ?_, ?_⟩
  · intro s networkid blockchainid avaxAssetID frm chg nodeID startTime endTime
      stakeAmount rewardAddress delegationFee fee feeAssetID memo asOf now h
    unfold UTXOSet.buildAddValidatorTx
    rw [if_pos h]
  · intro s networkid blockchainid avaxAssetID frm chg nodeID startTime endTime
      stakeAmount rewardAddress fee feeAssetID memo asOf now h
    unfold UTXOSet.buildAddDelegatorTx
    rw [if_pos h]
  · intro s networkid blockchainid frm chg nodeID startTime endTime weight fee
      feeAssetID memo asOf now h
    unfold UTXOSet.buildAddSubnetValidatorTx
    rw [if_pos h]

theorem c6_stake_window_witness :
    UTXOSet.buildAddValidatorTx ⟨[]⟩ 1 assetA assetA [addrX] [addrX] addrX 99
        200 MINSTAKE addrX 50 none assetA [] 0 100 =
      Except.error BuildError.addValidatorBadTimes :=
  c6_stake_window.1 ⟨[]⟩ 1 assetA assetA [addrX] [addrX] addrX 99 200 MINSTAKE
    addrX 50 none assetA [] 0 100 (Or.inl (by decide))

/-- C6 counterexample: with `startTime` equal to the clock value the validator
builder passes the time validation (failing here only on coin selection over
the empty set) instead of raising the invalid-time error that the claim's
`startTime > now` requirement would demand. -/
theorem c6_counterexample :
    UTXOSet.buildAddValidatorTx ⟨[]⟩ 12345 assetA assetA [addrX] [addrX] addrX
        100 200 MINSTAKE addrX 50 (some 1) assetA [] 0 100 =
      Except.error BuildError.insufficientFunds ∧
      BuildError.insufficientFunds ≠ BuildError.addValidatorBadTimes :=
  ⟨rfl, by decide⟩

/-- C7 (amended): for a nonzero amount, an explicit fee asset differing from
the AVAX asset makes the export builder raise the mismatch error, and an
omitted fee asset behaves exactly like the AVAX asset. -/
theorem c7_export_fee_gate :
    (∀ (s : UTXOSet) (networkid : Nat) (blockchainid : Bytes) (amount : Nat)
        (avaxAssetID : Bytes) (toA frm : List Bytes) (chg : Option (List Bytes))
        (destinationChain : Option Bytes) (fee : Option Nat) (f : Bytes)
        (memo : Bytes) (asOf locktime threshold : Nat),
        amount ≠ 0 → f ≠ avaxAssetID →
        s.buildExportTx networkid blockchainid amount avaxAssetID toA frm chg
            destinationChain fee (some f) memo asOf locktime threshold =
          Except.error BuildError.feeAssetMismatch) ∧
    (∀ (s : UTXOSet) (networkid : Nat) (blockchainid : Bytes) (amount : Nat)
        (avaxAssetID : Bytes) (toA frm : List Bytes) (chg : Option (List Bytes))
        (destinationChain : Option Bytes) (fee : Option Nat) (memo : Bytes)
        (asOf locktime threshold : Nat),
        s.buildExportTx networkid blockchainid amount avaxAssetID toA frm chg
            destinationChain fee none memo asOf locktime threshold =
          s.buildExportTx networkid blockchainid amount avaxAssetID toA frm chg
            destinationChain fee (some avaxAssetID) memo asOf locktime
            threshold) := by
  constructor
  · intro s networkid blockchainid amount avaxAssetID toA frm chg
      destinationChain fee f memo asOf locktime threshold hamt hne
    simp [UTXOSet.buildExportTx, hamt, hne]
  · intro s networkid blockchainid amount avaxAssetID toA frm chg
      destinationChain fee memo asOf locktime threshold
    simp [UTXOSet.buildExportTx]

theorem c7_export_fee_gate_witness :
    UTXOSet.buildExportTx ⟨[]⟩ 1 assetA 5 assetA [addrX] [addrX] none none none
        (some assetB) [] 1 0 1 = Except.error BuildError.feeAssetMismatch ∧
      UTXOSet.buildExportTx ⟨[]⟩ 1 assetA 5 assetA [addrX] [addrX] none none
          none none [] 1 0 1 =
        UTXOSet.buildExportTx ⟨[]⟩ 1 assetA 5 assetA [addrX] [addrX] none none
          none (some assetA) [] 1 0 1 :=
  ⟨c7_export_fee_gate.1 ⟨[]⟩ 1 assetA 5 assetA [addrX] [addrX] none none none
      assetB [] 1 0 1 (by decide) (by decide),
    c7_export_fee_gate.2 ⟨[]⟩ 1 assetA 5 assetA [addrX] [addrX] none none none
      [] 1 0 1⟩

/-- C7 counterexample: with a zero amount the export builder answers the
"no transaction" sentinel before ever inspecting the fee asset — a call with a
byte-wise different explicit fee asset raises no error. -/
theorem c7_counterexample :
    UTXOSet.buildExportTx ⟨[]⟩ 12345 assetA 0 assetA [addrX] [addrX] none none
        none (some assetB) [] 1 0 1 = Except.ok none ∧ assetB ≠ assetA :=
  ⟨rfl, by decide⟩

/-- C8 (amended): a zero amount makes `buildBaseTx` (once its threshold
precheck passes) and `buildExportTx` answer the "no transaction" sentinel with
no coin selection performed. -/
theorem c8_zero_amount :
    (∀ (s : UTXOSet) (networkid : Nat) (blockchainid assetID : Bytes)
        (toA frm : List Bytes) (chg : Option (List Bytes)) (fee : Option Nat)
        (feeAssetID : Option Bytes) (memo : Bytes)
        (asOf locktime threshold : Nat),
        ¬ toA.length < threshold →
        s.buildBaseTx networkid blockchainid 0 assetID toA frm chg fee feeAssetID
            memo asOf locktime threshold = Except.ok none) ∧
    (∀ (s : UTXOSet) (networkid : Nat) (blockchainid avaxAssetID : Bytes)
        (toA frm : List Bytes) (chg : Option (List Bytes))
        (destinationChain : Option Bytes) (fee : Option Nat)
        (feeAssetID : Option Bytes) (memo : Bytes)
        (asOf locktime threshold : Nat),
        s.buildExportTx networkid blockchainid 0 avaxAssetID toA frm chg
            destinationChain fee feeAssetID memo asOf locktime threshold =
          Except.ok none) := by
  constructor
  · intro s networkid blockchainid assetID toA frm chg fee feeAssetID memo asOf
      locktime threshold h
    simp [UTXOSet.buildBaseTx, h]
  · intro s networkid blockchainid avaxAssetID toA frm chg destinationChain fee
      feeAssetID memo asOf locktime threshold
    simp [UTXOSet.buildExportTx]

theorem c8_zero_amount_witness :
    UTXOSet.buildBaseTx ⟨[]⟩ 1 assetA 0 assetA [addrX] [addrX] none none none []
        1 0 1 = Except.ok none ∧
      UTXOSet.buildExportTx ⟨[]⟩ 1 assetA 0 assetA [addrX] [addrX] none none
          none none [] 1 0 1 = Except.ok none :=
  ⟨c8_zero_amount.1 ⟨[]⟩ 1 assetA assetA [addrX] [addrX] none none none [] 1 0 1
      (by decide),
    c8_zero_amount.2 ⟨[]⟩ 1 assetA assetA [addrX] [addrX] none none none none []
      1 0 1⟩

/-- C8 counterexample: `buildBaseTx` runs its threshold precheck before the
zero-amount sentinel, so a zero-amount call whose threshold exceeds the
destination count throws instead of answering the sentinel. -/
theorem c8_counterexample :
    UTXOSet.buildBaseTx ⟨[]⟩ 12345 assetA 0 assetA [] [addrX] none none none []
        0 0 1 = Except.error BuildError.thresholdExceedsAddresses := rfl

/-- C9: a string source-chain argument to the façade import builders is
ignored — the built transaction's source chain is always the decoded platform
chain id, whatever character codes the string held. -/
theorem c9_import_source_chain :
    (∀ (cs : List Nat),
        resolveSourceChain (ChainArg.str cs) = platformChainIDBytes) ∧
    (∀ (s : UTXOSet) (networkid : Nat) (blockchainid : Bytes)
        (owners : List Bytes) (importIns : List TransferableInput)
        (cs : List Nat) (fee : Option Nat) (feeAssetID : Option Bytes)
        (memo : Bytes) (asOf : Nat) (tx : ImportTx),
        facadeBuildImportTx s networkid blockchainid owners importIns
            (ChainArg.str cs) fee feeAssetID memo asOf = Except.ok tx →
        tx.sourceChain = platformChainIDBytes) := by
  refine ⟨fun _ => rfl, ?_⟩
  intro s networkid blockchainid owners importIns cs fee feeAssetID memo asOf
    tx h
  unfold facadeBuildImportTx UTXOSet.buildImportTx at h
  cases hsel : feeOnlySelection s owners owners fee feeAssetID asOf with
  | error e =>
    rw [hsel] at h
    cases h
  | ok io =>
    rw [hsel] at h
    injection h with h2
    subst h2
    rfl

theorem c9_import_source_chain_witness :
    ImportTx.sourceChain
        { networkid := 1, blockchainid := assetA, outs := [], ins := [],
          memo := [], sourceChain := platformChainIDBytes, importIns := [] } =
      platformChainIDBytes :=
  c9_import_source_chain.2 ⟨[]⟩ 1 assetA [] [] [88] none none [] 0 _ rfl

/-- C10: `PlatformVMAPI.getDefaultFee` reads the X-chain fee of every known
network's entry in the `Defaults` table, and `getFee` caches that value on
first use. -/
theorem c10_default_fee :
    (∀ p ∈ DefaultsNetwork, getDefaultFee p.1 = p.2.x.fee) ∧
    (∀ st : PlatformVMState, (getFee st).2.fee = some (getFee st).1 ∧
        getFee (getFee st).2 = getFee st) := by
  constructor
  · decide
  · intro st
    cases hf : st.fee with
    | some f => simp [getFee, hf]
    | none => simp [getFee, hf]

theorem c10_default_fee_witness :
    getDefaultFee 1 = 1000000 := by
  have h := c10_default_fee.1
    (1, { x := { fee := 1000000 }, p := { fee := 2000000 } }) (by decide)
  simpa using h

end Avalanche
